import Mathlib

/-!
Verification of the ludic element/component rendering core against its
specification.  The Python source (`ludic/base.py`, `ludic/styles/themes.py`)
is shallowly embedded: elements become an inductive tree type, the
`to_html` / `to_string` serializers become recursive functions, the render
resolution loop becomes a fuel-instrumented iteration, and the constructor
plus mini-parser pipeline becomes `Except`-valued functions.  Helpers that
live in `ludic/utils.py` (not part of the sources at hand) are modelled from
the specification and marked as such.
-/

namespace Ludic

/-! ### Python `html.escape` / `html.unescape` (stdlib, as used by the code) -/

/-- One character of Python `html.escape(s, quote=True)`: the five
replacements performed by the stdlib, as a character-to-string map
(equivalent to the stdlib's sequential `str.replace` passes because no
replacement string contains a character replaced by a later pass). -/
def escapeChar (c : Char) : List Char :=
  if c = '&' then ['&', 'a', 'm', 'p', ';']
  else if c = '<' then ['&', 'l', 't', ';']
  else if c = '>' then ['&', 'g', 't', ';']
  else if c = '"' then ['&', 'q', 'u', 'o', 't', ';']
  else if c = '\x27' then ['&', '#', 'x', '2', '7', ';']
  else [c]

/-- Python `html.escape` with the default `quote=True`, over a character list. -/
def escapeList : List Char → List Char
  | [] => []
  | c :: rest => escapeChar c ++ escapeList rest

/-- Python `html.escape` on strings. -/
def htmlEscape (s : String) : String := ⟨escapeList s.data⟩

/-- Python `html.unescape`, restricted to the five character references that
`html.escape` emits.  On the range of `escapeList` this agrees with the
stdlib (every `&` in escaped output opens one of these five references, and
each reference is terminated by its `;`). -/
def unescapeList : List Char → List Char
  | '&' :: 'a' :: 'm' :: 'p' :: ';' :: r => '&' :: unescapeList r
  | '&' :: 'l' :: 't' :: ';' :: r => '<' :: unescapeList r
  | '&' :: 'g' :: 't' :: ';' :: r => '>' :: unescapeList r
  | '&' :: 'q' :: 'u' :: 'o' :: 't' :: ';' :: r => '"' :: unescapeList r
  | '&' :: '#' :: 'x' :: '2' :: '7' :: ';' :: r => '\x27' :: unescapeList r
  | c :: rest => c :: unescapeList rest
  | [] => []

/-- Python `html.unescape` on strings (restricted as above). -/
def htmlUnescape (s : String) : String := ⟨unescapeList s.data⟩

set_option maxHeartbeats 2000000 in
theorem unescapeList_escapeList (l : List Char) :
    unescapeList (escapeList l) = l := by
  induction l with
  | nil => rfl
  | cons c cs ih =>
    by_cases h1 : c = '&'
    · subst h1; simp [escapeList, escapeChar, unescapeList, ih]
    · by_cases h2 : c = '<'
      · subst h2; simp [escapeList, escapeChar, unescapeList, ih]
      · by_cases h3 : c = '>'
        · subst h3; simp [escapeList, escapeChar, unescapeList, ih]
        · by_cases h4 : c = '"'
          · subst h4; simp [escapeList, escapeChar, unescapeList, ih]
          · by_cases h5 : c = '\x27'
            · subst h5; simp [escapeList, escapeChar, unescapeList, ih]
            · simp [escapeList, escapeChar, h1, h2, h3, h4, h5, unescapeList, ih]

theorem htmlUnescape_htmlEscape (s : String) :
    htmlUnescape (htmlEscape s) = s := by
  cases s with
  | mk data => simp [htmlUnescape, htmlEscape, unescapeList_escapeList]

/-! ### The element tree (`ludic/base.py`)

A Python `Element` either carries a class-level `html_name` (a "concrete"
node, whose inherited `render` returns `self`) or lacks it (a "composite"
node — a `Component` — whose overriding `render` deterministically produces
the next node in the lowering chain, embedded here as the `renderTo` field).
Children are the `AnyChild` union: primitives (`Safe`, `str`, `bool`, `int`,
`float`) or a nested element.  A `float` child only ever appears through its
`str()` representation, which the embedding carries directly. -/

inductive AttrValue where
  | str (s : String)
  | bool (b : Bool)
  | int (n : Int)
  deriving DecidableEq

mutual
inductive Node where
  | concrete (className htmlName : String) (alwaysPair : Bool)
      (attrs : List (String × AttrValue)) (children : List Child)
  | composite (className : String) (attrs : List (String × AttrValue))
      (children : List Child) (renderTo : Node)

inductive Child where
  | safe (s : String)
  | pstr (s : String)
  | pbool (b : Bool)
  | pint (n : Int)
  | pfloat (r : String)
  | elem (n : Node)
end

def Node.className : Node → String
  | .concrete cn _ _ _ _ => cn
  | .composite cn _ _ _ => cn

/-- `hasattr(dom, "html_name")`: present exactly on concrete nodes. -/
def Node.htmlName : Node → Option String
  | .concrete _ hn _ _ _ => some hn
  | .composite _ _ _ _ => none

def Node.isConcrete (n : Node) : Bool := n.htmlName.isSome

def Node.alwaysPair : Node → Bool
  | .concrete _ _ ap _ _ => ap
  | .composite _ _ _ _ => false

def Node.attrs : Node → List (String × AttrValue)
  | .concrete _ _ _ attrs _ => attrs
  | .composite _ attrs _ _ => attrs

def Node.children : Node → List Child
  | .concrete _ _ _ _ cs => cs
  | .composite _ _ cs _ => cs

/-- `Element.render` returns `self`; a composite (`Component`) overrides it,
deterministically producing the next node of the lowering chain. -/
def Node.render : Node → Node
  | .concrete cn hn ap attrs cs => .concrete cn hn ap attrs cs
  | .composite _ _ _ t => t

/-- `isinstance(child, PrimitiveChild)` for
`PrimitiveChild = Safe | str | bool | int | float`. -/
def Child.isPrimitive : Child → Bool
  | .elem _ => false
  | _ => true

/-- Python `str(child)` on a primitive child. -/
def Child.primStr : Child → String
  | .safe s => s
  | .pstr s => s
  | .pbool b => if b then "True" else "False"
  | .pint n => toString n
  | .pfloat r => r
  | .elem _ => ""

/-- `Element.is_simple` applied to a child list: exactly one child and it is
a primitive. -/
def isSimpleChildren : List Child → Bool
  | [c] => c.isPrimitive
  | _ => false

def Node.is_simple (n : Node) : Bool := isSimpleChildren n.children

/-- `Element.has_attributes`. -/
def Node.has_attributes (n : Node) : Bool := !n.attrs.isEmpty

/-! ### Serialization: `to_html` (compact HTML mode) -/

/-- Modelled from the spec: `format_html_attribute` (from `ludic/utils.py`,
not among the sources): boolean `true` emits the bare attribute name,
boolean `false` emits nothing, and any other value is emitted as a quoted,
attribute-escaped string. -/
def formatHtmlAttribute (key : String) : AttrValue → String
  | .bool true => key
  | .bool false => ""
  | .str v => key ++ "=\"" ++ htmlEscape v ++ "\""
  | .int n => key ++ "=\"" ++ toString n ++ "\""

/-- Modelled from the spec: `format_attribute` (from `ludic/utils.py`, not
among the sources), the plain `key="value"` formatter used by `to_string`. -/
def formatAttribute (key : String) : AttrValue → String
  | .bool b => key ++ "=\"" ++ (if b then "True" else "False") ++ "\""
  | .str v => key ++ "=\"" ++ v ++ "\""
  | .int n => key ++ "=\"" ++ toString n ++ "\""

/-- `Element._format_attributes`: `" ".join(formatter(key, value) ...)`. -/
def joinAttrs (f : String → AttrValue → String) (attrs : List (String × AttrValue)) : String :=
  String.intercalate " " (attrs.map fun p => f p.1 p.2)

mutual
/-- `Element.to_html`: the `while not hasattr(dom, "html_name")` resolution
loop followed by tag/attribute/children emission. -/
def Node.to_html : Node → String
  | .composite _ _ _ t => Node.to_html t
  | .concrete _ hn ap attrs cs =>
    let tag := "<" ++ hn
    let tag := if attrs.isEmpty then tag else tag ++ " " ++ joinAttrs formatHtmlAttribute attrs
    if cs.isEmpty && !ap then tag ++ " />"
    else tag ++ ">" ++ childListHtml cs ++ "</" ++ hn ++ ">"

/-- `Element._format_children` with the default formatter. -/
def childListHtml : List Child → String
  | [] => ""
  | c :: rest => defaultHtmlFormatter c ++ childListHtml rest

/-- `default_html_formatter`: plain `str` children are HTML-escaped; every
other child (including `Safe`) goes through `str(child)` — which on a nested
element is `Element.__str__`, i.e. `to_html`. -/
def defaultHtmlFormatter : Child → String
  | .pstr s => htmlEscape s
  | .safe s => s
  | .pbool b => if b then "True" else "False"
  | .pint n => toString n
  | .pfloat r => r
  | .elem n => Node.to_html n
end

/-! ### Serialization: `to_string` (pretty/debug mode) -/

def indentOf (level : Nat) : String := String.join (List.replicate level "  ")

/-- Body of `Element.to_string` over the fields it reads, with the children
already rendered to `childrenStr` (the source computes `children_str` only
when children exist; `childListToString [] _ _ = ""` makes the eager form
identical). -/
def toStringLayout (name : String) (attrs : List (String × AttrValue))
    (csEmpty simple : Bool) (childrenStr : String) (pretty : Bool) (level : Nat) : String :=
  let indent := if pretty then indentOf level else ""
  let e0 := indent ++ "<" ++ name
  let e1 := if level > 0 && pretty then "\n" ++ e0 else e0
  let e2 := if attrs.isEmpty then e1 else e1 ++ " " ++ joinAttrs formatAttribute attrs
  if csEmpty then e2 ++ " />"
  else if pretty then
    if simple then
      if attrs.isEmpty then e2 ++ ">" ++ childrenStr ++ "</" ++ name ++ ">"
      else e2 ++ ">\n" ++ indent ++ "  " ++ childrenStr ++ "\n" ++ indent ++ "</" ++ name ++ ">"
    else e2 ++ ">" ++ indent ++ "  " ++ childrenStr ++ "\n" ++ indent ++ "</" ++ name ++ ">"
  else e2 ++ ">" ++ childrenStr ++ "</" ++ name ++ ">"

mutual
/-- `Element.to_string` — uses the node's own class name and children,
without render resolution. -/
def Node.to_string : Node → Bool → Nat → String
  | .concrete cn _ _ attrs cs, pretty, level =>
    toStringLayout cn attrs cs.isEmpty (isSimpleChildren cs)
      (childListToString cs pretty (level + 1)) pretty level
  | .composite cn attrs cs _, pretty, level =>
    toStringLayout cn attrs cs.isEmpty (isSimpleChildren cs)
      (childListToString cs pretty (level + 1)) pretty level

def childListToString : List Child → Bool → Nat → String
  | [], _, _ => ""
  | c :: rest, pretty, lvl => childToString c pretty lvl ++ childListToString rest pretty lvl

/-- The per-child lambda of `to_string`: primitives via `str(child)`,
elements via their own `to_string` at the next level. -/
def childToString : Child → Bool → Nat → String
  | .elem n, pretty, lvl => Node.to_string n pretty lvl
  | c, _, _ => c.primStr
end

/-! ### Errors and `__format__` -/

inductive PyErr where
  | typeError
  | shapeError
  | unknownTag (name : String)
  | importWarning (name : String)
  deriving DecidableEq

/-- `Element.__format__`: raises `TypeError` when some child is not a
primitive, otherwise returns `to_string(pretty=False)`. -/
def Node.formatMethod (n : Node) : Except PyErr String :=
  if n.children.all Child.isPrimitive then .ok (n.to_string false 0)
  else .error .typeError

/-! ### The render resolution loop, instrumented -/

/-- The `while not hasattr(dom, "html_name"): dom = dom.render()` loop of
`to_html`, over an abstract state: `fuel` bounds the number of loop
iterations we are willing to observe (the Python loop itself has no bound),
and the returned `Nat` counts the `render()` steps actually performed.
`none` means the loop is still running after `fuel` iterations. -/
def resolveCount {α : Type} (step : α → α) (isConc : α → Bool) : Nat → α → Option (α × Nat)
  | 0, _ => none
  | fuel + 1, n =>
    if isConc n then some (n, 0)
    else (resolveCount step isConc fuel (step n)).map fun p => (p.1, p.2 + 1)

/-- The same loop on embedded nodes, where every render chain is finite. -/
def Node.resolve : Node → Node
  | .concrete cn hn ap attrs cs => .concrete cn hn ap attrs cs
  | .composite _ _ _ t => Node.resolve t

/-! ### The mini-parser (`parse_elements` from `ludic/utils.py`)

`parse_elements` itself is not among the sources; it is modelled from the
specification's grammar: interleaved plain-text runs and tags
`<Name attr="value" flag ...>inner</Name>` or self-closing `<Name ... />`,
with a tag's inner text parsed recursively as its children. -/

inductive ParsedItem where
  | text (s : String)
  | tag (name : String) (attrs : List (String × String)) (children : List ParsedItem)

def isNameChar (c : Char) : Bool := c.isAlphanum || c == '_'

def takeName : List Char → List Char × List Char
  | [] => ([], [])
  | c :: rest =>
    if isNameChar c then
      let p := takeName rest
      (c :: p.1, p.2)
    else ([], c :: rest)

def skipSpaces : List Char → List Char
  | c :: rest => if c = ' ' then skipSpaces rest else c :: rest
  | [] => []

def takeUntilQuote : List Char → List Char × List Char
  | [] => ([], [])
  | c :: rest =>
    if c = '"' then ([], c :: rest)
    else
      let p := takeUntilQuote rest
      (c :: p.1, p.2)

/-- Consume an exact character sequence, returning what follows it. -/
def dropExact : List Char → List Char → Option (List Char)
  | [], r => some r
  | c :: p, d :: r => if c = d then dropExact p r else none
  | _ :: _, [] => none

/-- Consume a closing tag `</name>`. -/
def matchClose (name : List Char) : List Char → Option (List Char)
  | '<' :: '/' :: r =>
    match dropExact name r with
    | none => none
    | some r2 =>
      match skipSpaces r2 with
      | '>' :: r3 => some r3
      | _ => none
  | _ => none

/-- Modelled from the spec: the attribute list of a tag, read until the
closing `>` (returning `false`) or `/>` (returning `true`). -/
def parseAttrList : Nat → List Char → Option (List (String × String) × Bool × List Char)
  | 0, _ => none
  | fuel + 1, cs =>
    match skipSpaces cs with
    | '>' :: r => some ([], false, r)
    | '/' :: '>' :: r => some ([], true, r)
    | cs2 =>
      let p := takeName cs2
      if p.1.isEmpty then none
      else
        match p.2 with
        | '=' :: '"' :: r2 =>
          let q := takeUntilQuote r2
          match q.2 with
          | '"' :: r4 =>
            (parseAttrList fuel r4).map fun res => ((⟨p.1⟩, (⟨q.1⟩ : String)) :: res.1, res.2.1, res.2.2)
          | _ => none
        | r1 =>
          (parseAttrList fuel r1).map fun res => ((⟨p.1⟩, "") :: res.1, res.2.1, res.2.2)

/-- Merge a text fragment into the front of an item list, coalescing
adjacent text runs. -/
def consText (s : String) : List ParsedItem → List ParsedItem
  | ParsedItem.text t :: rest => ParsedItem.text (s ++ t) :: rest
  | items => ParsedItem.text s :: items

/-- Modelled from the spec: the scanning loop of `parse_elements`.  Stops at
the end of input or just before a closing tag (which the enclosing tag's
parse consumes); unparsable markup falls back to plain text. -/
def parseNodes : Nat → List Char → List ParsedItem × List Char
  | 0, cs => ([], cs)
  | _ + 1, [] => ([], [])
  | _ + 1, '<' :: '/' :: rest => ([], '<' :: '/' :: rest)
  | fuel + 1, '<' :: rest =>
    let p := takeName rest
    if p.1.isEmpty then
      let q := parseNodes fuel rest
      (consText "<" q.1, q.2)
    else
      match parseAttrList (p.2.length + 1) p.2 with
      | none =>
        let q := parseNodes fuel rest
        (consText "<" q.1, q.2)
      | some (attrs, true, r2) =>
        let q := parseNodes fuel r2
        (ParsedItem.tag ⟨p.1⟩ attrs [] :: q.1, q.2)
      | some (attrs, false, r2) =>
        let inner := parseNodes fuel r2
        let r4 := match matchClose p.1 inner.2 with
          | some r4 => r4
          | none => inner.2
        let q := parseNodes fuel r4
        (ParsedItem.tag ⟨p.1⟩ attrs inner.1 :: q.1, q.2)
  | fuel + 1, c :: rest =>
    let q := parseNodes fuel rest
    (consText (String.singleton c) q.1, q.2)

/-- Modelled from the spec: `parse_elements` (from `ludic/utils.py`, not
among the sources). -/
def parseElements (s : String) : List ParsedItem :=
  (parseNodes (s.data.length + 1) s.data).1

/-! ### Registry, validators, and the construction pipeline -/

inductive ChildVariant where
  | vStr | vSafe | vBool | vInt | vFloat | vElement | vPrimitive | vAny
  deriving DecidableEq

/-- Whether a child value belongs to a declared variant (`Safe` is a
subclass of `str`, so it also satisfies the `str` variant). -/
def ChildVariant.check : ChildVariant → Child → Bool
  | .vStr, .pstr _ => true
  | .vStr, .safe _ => true
  | .vSafe, .safe _ => true
  | .vBool, .pbool _ => true
  | .vInt, .pint _ => true
  | .vFloat, .pfloat _ => true
  | .vElement, .elem _ => true
  | .vPrimitive, c => c.isPrimitive
  | .vAny, _ => true
  | _, _ => false

/-- A node type's declared child shape: a fixed slot tuple, or zero-or-more
of one variant. -/
inductive ChildrenSpec where
  | fixed (slots : List ChildVariant)
  | many (v : ChildVariant)
  deriving DecidableEq

inductive AttrKind where
  | kStr | kBool | kInt
  deriving DecidableEq

def AttrValue.kind : AttrValue → AttrKind
  | .str _ => .kStr
  | .bool _ => .kBool
  | .int _ => .kInt

structure AttrSpec where
  name : String
  kind : AttrKind
  required : Bool
  deriving DecidableEq

/-- A registered element type: its class name (the registry key), its
`html_name` and `always_pair` class attributes, and its declared
attribute/child schema. -/
structure RegEntry where
  className : String
  htmlName : String
  alwaysPair : Bool
  attrSchema : List AttrSpec
  childSpec : ChildrenSpec
  deriving DecidableEq

/-- Modelled from the spec: `validate_attributes` (from `ludic/utils.py`,
not among the sources) — every supplied key must be declared with a matching
value type, and every required key must be present; otherwise a
`ShapeError`. -/
def validateAttributes (ty : RegEntry) (attrs : List (String × AttrValue)) : Except PyErr Unit :=
  if attrs.all (fun p => ty.attrSchema.any fun a => a.name == p.1 && a.kind == p.2.kind)
      && ty.attrSchema.all (fun a => !a.required || attrs.any fun p => p.1 == a.name)
  then .ok () else .error .shapeError

/-- Modelled from the spec: `validate_elements` (from `ludic/utils.py`, not
among the sources) — the children must match the declared slot tuple in
count and per-position variant, or all match the declared repeated
variant. -/
def validateElements (ty : RegEntry) (cs : List Child) : Except PyErr Unit :=
  match ty.childSpec with
  | .fixed slots =>
    if cs.length == slots.length && (List.zip slots cs).all (fun p => p.1.check p.2)
    then .ok () else .error .shapeError
  | .many v =>
    if cs.all (fun c => v.check c) then .ok () else .error .shapeError

/-- `_ELEMENT_REGISTRY` lookup (`dict` keyed by class name). -/
def lookupReg (reg : List RegEntry) (name : String) : Option RegEntry :=
  reg.find? fun e => e.className == name

/-- `Element.__init_subclass__`: declaring a type whose name is already in
the registry raises `ImportWarning` (and leaves the registry unchanged);
otherwise the type is added. -/
def initSubclass (reg : List RegEntry) (entry : RegEntry) : List RegEntry × Option PyErr :=
  if (lookupReg reg entry.className).isSome then
    (reg, some (.importWarning entry.className))
  else (reg ++ [entry], none)

/-- Building the element instance stored by a successful construction. -/
def mkNode (ty : RegEntry) (attrs : List (String × AttrValue)) (cs : List Child) : Node :=
  .concrete ty.className ty.htmlName ty.alwaysPair attrs cs

mutual
/-- Modelled from the spec: construction of one parsed item inside
`Safe.parse` — plain text becomes a trusted string, and
`element_type(*child["children"], **child["attrs"])` resolves the tag name
through the registry, converts the inner items recursively, and validates
the new element's attributes and children. -/
def constructItem (reg : List RegEntry) : ParsedItem → Except PyErr Child
  | .text s => .ok (.safe s)
  | .tag name attrs items =>
    match lookupReg reg name with
    | none => .error (.unknownTag name)
    | some ty =>
      match constructItems reg items with
      | .error e => .error e
      | .ok cs =>
        let attrs2 := attrs.map fun p => (p.1, AttrValue.str p.2)
        match validateAttributes ty attrs2 with
        | .error e => .error e
        | .ok _ =>
          match validateElements ty cs with
          | .error e => .error e
          | .ok _ => .ok (.elem (mkNode ty attrs2 cs))

def constructItems (reg : List RegEntry) : List ParsedItem → Except PyErr (List Child)
  | [] => .ok []
  | i :: rest =>
    match constructItem reg i with
    | .error e => .error e
    | .ok c =>
      match constructItems reg rest with
      | .error e => .error e
      | .ok cs => .ok (c :: cs)
end

/-- The per-item loop of `Safe.parse` (`ludic/base.py`): a plain string
becomes `Safe`, a tag whose name is missing from `_ELEMENT_REGISTRY` raises
(`TypeError` in the source — the spec's `UnknownTagError`), and any other
tag is constructed through its registered type. -/
def safeParseLoop (reg : List RegEntry) : List ParsedItem → Except PyErr (List Child)
  | [] => .ok []
  | .text s :: rest =>
    match safeParseLoop reg rest with
    | .error e => .error e
    | .ok cs => .ok (Child.safe s :: cs)
  | .tag name attrs items :: rest =>
    if (lookupReg reg name).isNone then .error (.unknownTag name)
    else
      match constructItem reg (.tag name attrs items) with
      | .error e => .error e
      | .ok c =>
        match safeParseLoop reg rest with
        | .error e => .error e
        | .ok cs => .ok (c :: cs)

/-- `Safe.parse`. -/
def safeParse (reg : List RegEntry) (s : String) : Except PyErr (List Child) :=
  safeParseLoop reg (parseElements s)

/-- `Element.__init__`: validates the attributes, then — when exactly one
child is supplied and it is a `Safe` string — expands that string via
`Safe.parse` and validates the expansion before storing it; in every other
case the supplied children are validated and stored as given. -/
def elementInit (reg : List RegEntry) (ty : RegEntry) (attrs : List (String × AttrValue))
    (children : List Child) : Except PyErr Node :=
  match validateAttributes ty attrs with
  | .error e => .error e
  | .ok _ =>
    match children with
    | [Child.safe s] =>
      match safeParse reg s with
      | .error e => .error e
      | .ok nc =>
        match validateElements ty nc with
        | .error e => .error e
        | .ok _ => .ok (mkNode ty attrs nc)
    | _ =>
      match validateElements ty children with
      | .error e => .error e
      | .ok _ => .ok (mkNode ty attrs children)

/-! ### Themes (`ludic/styles/themes.py`) -/

structure FontFamilies where
  headers : String
  paragraphs : String
  monospace : String
  deriving DecidableEq

structure FontSizes where
  small : Int
  medium : Int
  large : Int
  deriving DecidableEq

structure ThemeFonts where
  families : FontFamilies
  sizes : FontSizes
  deriving DecidableEq

structure ThemeColors where
  primary : String
  secondary : String
  success : String
  info : String
  warning : String
  danger : String
  dark : String
  light : String
  white : String
  black : String
  deriving DecidableEq

/-- A theme instance's data: the `@dataclass` fields in declaration order
(`fonts`, `colors` from `Theme`, then the subclass's `name`). -/
structure ThemeData where
  fonts : ThemeFonts
  colors : ThemeColors
  name : String
  deriving DecidableEq

def defaultFonts : ThemeFonts := ⟨⟨"serif", "sans-serif", "monospace"⟩, ⟨12, 14, 20⟩⟩

def defaultColors : ThemeColors :=
  ⟨"#0d6efd", "#6c757d", "#198754", "#0dcaf0", "#ffc107", "#dc3545",
   "#313539", "#f8f9fa", "#fff", "#222"⟩

def lightColorsDefault : ThemeColors :=
  ⟨"#c2e7fd", "#fefefe", "#c9ffad", "#fff080", "#ffc280", "#ffaca1",
   "#414549", "#f8f8f8", "#fff", "#222"⟩

/-- `DarkTheme()` with all defaults. -/
def darkThemeDefault : ThemeData := ⟨defaultFonts, defaultColors, "dark"⟩

/-- `LightTheme()` with all defaults. -/
def lightThemeDefault : ThemeData := ⟨defaultFonts, lightColorsDefault, "light"⟩

/-- A Python value on the right of `==` against a theme: a theme instance or
any non-`Theme` object. -/
inductive PyValue where
  | theme (t : ThemeData)
  | nonTheme (s : String)

/-- `Theme.__eq__` exactly as written in `themes.py`:
`isinstance(other, Theme) and self.name == other.name`. -/
def themeEqMethod (t : ThemeData) (o : PyValue) : Bool :=
  match o with
  | .theme t2 => t.name == t2.name
  | .nonTheme _ => false

/-- The `__eq__` that `@dataclass` generates for `DarkTheme` and
`LightTheme`: since neither subclass body defines `__eq__` itself, the
decorator adds a field-tuple comparison to each subclass, shadowing the
inherited name-based `Theme.__eq__`.  For two instances of the same theme
class it compares `(fonts, colors, name)`. -/
def dataclassThemeEq (t1 t2 : ThemeData) : Bool :=
  t1.fonts == t2.fonts && t1.colors == t2.colors && t1.name == t2.name

/-! ### Statement helpers -/

/-- The opening-tag text `to_html` builds before deciding how to close. -/
def openTagHtml (hn : String) (attrs : List (String × AttrValue)) : String :=
  if attrs.isEmpty then "<" ++ hn
  else "<" ++ hn ++ " " ++ joinAttrs formatHtmlAttribute attrs

/-! ### Claims -/

/-- Claim C1: for every primitive string `s` used as the sole child of a
concrete element, `to_html` emits the HTML-escaped text, and HTML-unescaping
that child text yields `s` back; if `s` is wrapped as a trusted (`Safe`)
string instead, `to_html` emits `s` verbatim with no escaping applied. -/
theorem c1_roundtrip_escaping (cn hn s : String) (ap : Bool) :
    Node.to_html (.concrete cn hn ap [] [Child.pstr s]) =
      "<" ++ hn ++ (">" ++ (htmlEscape s ++ ("</" ++ (hn ++ ">"))))
    ∧ htmlUnescape (htmlEscape s) = s
    ∧ Node.to_html (.concrete cn hn ap [] [Child.safe s]) =
      "<" ++ hn ++ (">" ++ (s ++ ("</" ++ (hn ++ ">")))) := by
  refine ⟨?_, htmlUnescape_htmlEscape s, ?_⟩ <;>
    simp [Node.to_html, childListHtml, defaultHtmlFormatter, String.append_assoc]

/-- Claim C2: a concrete node with zero children serializes as a
self-closing `<tag ... />` when `always_pair` is false and as an explicit
`<tag ...></tag>` pair when `always_pair` is true. -/
theorem c2_self_closing (cn hn : String) (attrs : List (String × AttrValue)) :
    Node.to_html (.concrete cn hn false attrs []) = openTagHtml hn attrs ++ " />"
    ∧ Node.to_html (.concrete cn hn true attrs []) =
        openTagHtml hn attrs ++ "></" ++ hn ++ ">" := by
  constructor <;> simp [Node.to_html, openTagHtml, childListHtml, String.append_assoc]

/-- Claim C3: on a concrete node (one carrying a tag name) resolution is a
no-op: `render()` returns the node itself, and the `to_html` resolution loop
returns the node after zero render steps. -/
theorem c3_idempotent_resolution (cn hn : String) (ap : Bool)
    (attrs : List (String × AttrValue)) (cs : List Child) (fuel : Nat) :
    Node.render (.concrete cn hn ap attrs cs) = .concrete cn hn ap attrs cs
    ∧ Node.resolve (.concrete cn hn ap attrs cs) = .concrete cn hn ap attrs cs
    ∧ resolveCount Node.render Node.isConcrete (fuel + 1) (.concrete cn hn ap attrs cs) =
        some (.concrete cn hn ap attrs cs, 0) := by
  refine ⟨rfl, rfl, ?_⟩
  simp [resolveCount, Node.isConcrete, Node.htmlName]

/-- A sample registry for concrete instantiations: paragraph and bold
element types accepting any children and no attributes. -/
def bTy : RegEntry := ⟨"b", "b", false, [], .many .vAny⟩

def pTy : RegEntry := ⟨"p", "p", false, [], .many .vAny⟩

/-- A second, distinct type that also wants the class name `b`. -/
def bTyDup : RegEntry := ⟨"b", "strong", true, [], .many .vAny⟩

def sampleReg : List RegEntry := [pTy, bTy]

/-- Claim C4: if exactly one child is supplied and it is a trusted (`Safe`)
string, the constructor expands it via `Safe.parse` and validates (then
stores) the expanded sequence; in every other case the supplied children are
validated and stored as given. -/
theorem c4_constructor_expansion (reg : List RegEntry) (ty : RegEntry)
    (attrs : List (String × AttrValue)) (children : List Child) (s : String) :
    ((∀ nc, safeParse reg s = .ok nc → validateAttributes ty attrs = .ok () →
        elementInit reg ty attrs [Child.safe s] =
          match validateElements ty nc with
          | .ok _ => .ok (mkNode ty attrs nc)
          | .error e => .error e)
    ∧ ((∀ t, children ≠ [Child.safe t]) → validateAttributes ty attrs = .ok () →
        elementInit reg ty attrs children =
          match validateElements ty children with
          | .ok _ => .ok (mkNode ty attrs children)
          | .error e => .error e)) := by
  constructor
  · intro nc hparse hattrs
    simp only [elementInit, hattrs, hparse]
    cases validateElements ty nc <;> rfl
  · intro hne hattrs
    rcases children with _ | ⟨c, rest⟩
    · simp only [elementInit, hattrs]
      cases validateElements ty [] <;> rfl
    · rcases rest with _ | ⟨c2, rest2⟩
      · cases c with
        | safe t => exact absurd rfl (hne t)
        | pstr t =>
          simp only [elementInit, hattrs]
          cases validateElements ty [Child.pstr t] <;> rfl
        | pbool b =>
          simp only [elementInit, hattrs]
          cases validateElements ty [Child.pbool b] <;> rfl
        | pint n =>
          simp only [elementInit, hattrs]
          cases validateElements ty [Child.pint n] <;> rfl
        | pfloat r =>
          simp only [elementInit, hattrs]
          cases validateElements ty [Child.pfloat r] <;> rfl
        | elem n =>
          simp only [elementInit, hattrs]
          cases validateElements ty [Child.elem n] <;> rfl
      · simp only [elementInit, hattrs]
        cases c <;> cases validateElements ty (_ :: c2 :: rest2) <;> rfl

theorem c4_constructor_expansion_witness :
    elementInit sampleReg pTy [] [Child.safe "hi <b>x</b>"] =
      .ok (mkNode pTy [] [Child.safe "hi ", Child.elem (mkNode bTy [] [Child.safe "x"])])
    ∧ elementInit sampleReg pTy [] [Child.pstr "y"] =
      .ok (mkNode pTy [] [Child.pstr "y"]) := by
  constructor
  · rw [(c4_constructor_expansion sampleReg pTy [] [Child.safe "hi <b>x</b>"]
        "hi <b>x</b>").1
        [Child.safe "hi ", Child.elem (mkNode bTy [] [Child.safe "x"])] rfl rfl]
    rfl
  · rw [(c4_constructor_expansion sampleReg pTy [] [Child.pstr "y"] "").2
        (fun t h => by simp at h) rfl]
    rfl

/-- If an item constructs successfully, its tag (if it is one) was found in
the registry. -/
theorem safeParseLoop_append_error (reg : List RegEntry)
    (post : List ParsedItem) (name : String) (attrs : List (String × String))
    (items : List ParsedItem) (hname : lookupReg reg name = none) :
    ∀ pre, (∀ i ∈ pre, ∃ c, constructItem reg i = .ok c) →
      safeParseLoop reg (pre ++ ParsedItem.tag name attrs items :: post) =
        .error (.unknownTag name) := by
  intro pre
  induction pre with
  | nil =>
    intro _
    simp [safeParseLoop, hname]
  | cons i rest ih =>
    intro hpre
    have hrest := ih fun j hj => hpre j (List.mem_cons_of_mem i hj)
    obtain ⟨c, hc⟩ := hpre i (List.mem_cons_self i rest)
    cases i with
    | text s => simp [safeParseLoop, hrest]
    | tag n2 a2 it2 =>
      cases hx : lookupReg reg n2 with
      | none => simp [constructItem, hx] at hc
      | some ty2 => simp [safeParseLoop, hx, hc, hrest]

/-- Claim C6: an input string containing a (top-level) tag whose name is not
present in the global type registry makes `Safe.parse` fail; provided the
items before it all construct, the failure is precisely the unknown-tag
error (raised as `TypeError` in the source, the spec's `UnknownTagError`). -/
theorem c6_unknown_tag (reg : List RegEntry) (input : String)
    (pre post : List ParsedItem) (name : String) (attrs : List (String × String))
    (items : List ParsedItem)
    (hsplit : parseElements input = pre ++ ParsedItem.tag name attrs items :: post)
    (hpre : ∀ i ∈ pre, ∃ c, constructItem reg i = .ok c)
    (hname : lookupReg reg name = none) :
    safeParse reg input = .error (.unknownTag name) := by
  rw [safeParse, hsplit]
  exact safeParseLoop_append_error reg post name attrs items hname pre hpre

theorem c6_unknown_tag_witness :
    safeParse sampleReg "<Bogus>x</Bogus>" = .error (.unknownTag "Bogus") :=
  c6_unknown_tag sampleReg "<Bogus>x</Bogus>" [] [] "Bogus" [] [ParsedItem.text "x"]
    rfl (fun i hi => absurd hi (List.not_mem_nil i)) rfl

/-- Claim C7: declaring a second element/component type whose class name is
already registered raises at type-declaration time (`ImportWarning` in the
source — the spec's `DuplicateTypeNameError`) and leaves the registry, and
in particular the existing entry under that name, unchanged. -/
theorem c7_duplicate_registration (reg : List RegEntry) (entry old : RegEntry)
    (h : lookupReg reg entry.className = some old) :
    initSubclass reg entry = (reg, some (.importWarning entry.className))
    ∧ lookupReg (initSubclass reg entry).1 entry.className = some old := by
  refine ⟨?_, ?_⟩ <;> simp [initSubclass, h]

theorem c7_duplicate_registration_witness :
    initSubclass sampleReg bTyDup = (sampleReg, some (.importWarning "b"))
    ∧ lookupReg (initSubclass sampleReg bTyDup).1 "b" = some bTy :=
  c7_duplicate_registration sampleReg bTyDup bTy rfl

/-- One unfolding of the loop when fuel remains. -/
theorem resolveCount_succ {α : Type} (step : α → α) (isConc : α → Bool)
    (fuel : Nat) (n : α) :
    resolveCount step isConc (fuel + 1) n =
      if isConc n then some (n, 0)
      else (resolveCount step isConc fuel (step n)).map fun p => (p.1, p.2 + 1) := rfl

/-- The loop of `to_html` on a self-rendering composite (`render` returning
a node that again lacks `html_name`) makes no progress: no amount of fuel
observes an exit. -/
theorem resolveCount_cyclic (fuel start : Nat) :
    resolveCount (fun s : Nat => s) (fun _ => false) fuel start = none := by
  induction fuel generalizing start with
  | zero => rfl
  | succ n ih => simp [resolveCount_succ, ih]

/-- Claim C5 (as stated) is false: a cyclic render chain does not cause a
failure — the `while not hasattr(dom, "html_name")` loop of `to_html` simply
never exits (the source has no depth guard and raises nothing), as the
specification's own design notes concede. -/
theorem c5_counterexample :
    ¬ ∃ (fuel : Nat) (r : Nat × Nat),
        resolveCount (fun s : Nat => s) (fun _ => false) fuel 0 = some r := by
  rintro ⟨fuel, r, h⟩
  rw [resolveCount_cyclic fuel 0] at h
  exact Option.noConfusion h

/-- Claim C5 (amended): when the iterated `render()` chain from a node
reaches a concrete node within `k` steps, the resolution loop terminates and
returns the first concrete node of the chain, after at most `k` render
steps; but on a cyclic render chain the loop runs forever — it does not
fail. -/
theorem c5_amended_resolution :
    (∀ (α : Type) (step : α → α) (isConc : α → Bool) (n : α) (k : Nat),
        isConc (step^[k] n) = true →
        ∃ m, m ≤ k ∧ isConc (step^[m] n) = true ∧
          resolveCount step isConc (k + 1) n = some (step^[m] n, m))
    ∧ (∀ fuel start, resolveCount (fun s : Nat => s) (fun _ => false) fuel start = none) := by
  constructor
  · intro α step isConc n k
    induction k generalizing n with
    | zero =>
      intro h
      rw [Function.iterate_zero_apply] at h
      refine ⟨0, Nat.le_refl 0, ?_, ?_⟩
      · rw [Function.iterate_zero_apply]; exact h
      · rw [Function.iterate_zero_apply, resolveCount_succ, h]; simp
    | succ k ih =>
      intro h
      cases hc : isConc n with
      | true =>
        refine ⟨0, Nat.zero_le _, ?_, ?_⟩
        · rw [Function.iterate_zero_apply]; exact hc
        · rw [Function.iterate_zero_apply, resolveCount_succ, hc]; simp
      | false =>
        rw [Function.iterate_succ_apply] at h
        obtain ⟨m, hm, hconc, hres⟩ := ih (step n) h
        refine ⟨m + 1, Nat.succ_le_succ hm, ?_, ?_⟩
        · rw [Function.iterate_succ_apply]; exact hconc
        · rw [Function.iterate_succ_apply, resolveCount_succ, hc]
          simp [hres]
  · exact resolveCount_cyclic

theorem c5_amended_resolution_witness :
    ∃ m, m ≤ 2 ∧ (fun v : Nat => v == 2) (Nat.succ^[m] 0) = true ∧
      resolveCount Nat.succ (fun v : Nat => v == 2) 3 0 = some (Nat.succ^[m] 0, m) :=
  c5_amended_resolution.1 Nat Nat.succ (fun v => v == 2) 0 2 (by decide)

/-- The opening text `to_string` builds in pretty mode before deciding the
layout of the children: optional leading newline, the indentation, the
declared class name, and the formatted attributes. -/
def openTagString (cn : String) (attrs : List (String × AttrValue)) (level : Nat) : String :=
  let e0 := indentOf level ++ "<" ++ cn
  let e1 := if level > 0 then "\n" ++ e0 else e0
  if attrs.isEmpty then e1 else e1 ++ " " ++ joinAttrs formatAttribute attrs

/-- A component-like node with two primitive (string) children — legal, as
in the source's own `Person(Component[str, str, PersonAttrs])` example. -/
def twoStrNode : Node := .concrete "Person" "div" false [] [Child.pstr "a", Child.pstr "b"]

/-- Claim C8 as stated is false: in pretty mode, a non-simple node's
primitive children are emitted inline after the opening tag (with a stray
two-space gap), not each on its own line indented at `level + 1`. -/
theorem c8_counterexample :
    Node.to_string twoStrNode true 0 = "<Person>  ab\n</Person>"
    ∧ Node.to_string twoStrNode true 0 ≠ "<Person>\n  a\n  b\n</Person>" :=
  ⟨rfl, by decide⟩

/-- Claim C8 (amended): in pretty mode, a simple node (single primitive
child) without attributes inlines the child on the opening line; a simple
node with attributes places its child on its own line indented one level
deeper; otherwise the concatenated children string follows the opening tag
after the current indent plus two spaces — each element child starting on
its own line at `level + 1` via its leading newline, while primitive
children are emitted inline — and the closing tag sits on a fresh line;
every childless node renders as a self-closing tag using the declared type
name regardless of `always_pair`. -/
theorem c8_amended_pretty_layout (cn hn : String) (ap : Bool)
    (attrs : List (String × AttrValue)) (p : Child) (cs : List Child) (level : Nat) :
    (p.isPrimitive = true →
      Node.to_string (.concrete cn hn ap [] [p]) true level =
        openTagString cn [] level ++ ">" ++ p.primStr ++ "</" ++ cn ++ ">")
    ∧ (p.isPrimitive = true → attrs ≠ [] →
      Node.to_string (.concrete cn hn ap attrs [p]) true level =
        openTagString cn attrs level ++ ">\n" ++ indentOf level ++ "  " ++ p.primStr
          ++ "\n" ++ indentOf level ++ "</" ++ cn ++ ">")
    ∧ (isSimpleChildren cs = false → cs ≠ [] →
      Node.to_string (.concrete cn hn ap attrs cs) true level =
        openTagString cn attrs level ++ ">" ++ indentOf level ++ "  "
          ++ childListToString cs true (level + 1)
          ++ "\n" ++ indentOf level ++ "</" ++ cn ++ ">")
    ∧ (∀ e : Node, ∃ rest, childToString (Child.elem e) true (level + 1) =
        "\n" ++ (indentOf (level + 1) ++ rest))
    ∧ (Node.to_string (.concrete cn hn ap attrs []) true level =
        openTagString cn attrs level ++ " />") := by
  refine ⟨?_, ?_, ?_, ?_, ?_⟩
  · intro hp
    cases p <;> simp_all [Node.to_string, toStringLayout, openTagString, isSimpleChildren,
      Child.isPrimitive, childListToString, childToString, Child.primStr, String.append_assoc]
  · intro hp hattrs
    have hA : attrs.isEmpty = false := by
      cases attrs with
      | nil => exact absurd rfl hattrs
      | cons a as => rfl
    cases p <;> simp_all [Node.to_string, toStringLayout, openTagString, isSimpleChildren,
      Child.isPrimitive, childListToString, childToString, Child.primStr, String.append_assoc]
  · intro hsimple hne
    have hC : cs.isEmpty = false := by
      cases cs with
      | nil => exact absurd rfl hne
      | cons c rest => rfl
    by_cases hA : attrs.isEmpty <;>
      simp_all [Node.to_string, toStringLayout, openTagString, String.append_assoc]
  · intro e
    cases e with
    | concrete cn2 hn2 ap2 attrs2 cs2 =>
      simp only [childToString, Node.to_string]
      by_cases hA : attrs2.isEmpty <;> by_cases hC : cs2.isEmpty <;>
        by_cases hS : isSimpleChildren cs2 <;>
        simp_all [toStringLayout, String.append_assoc] <;> exact ⟨_, rfl⟩
    | composite cn2 attrs2 cs2 t =>
      simp only [childToString, Node.to_string]
      by_cases hA : attrs2.isEmpty <;> by_cases hC : cs2.isEmpty <;>
        by_cases hS : isSimpleChildren cs2 <;>
        simp_all [toStringLayout, String.append_assoc] <;> exact ⟨_, rfl⟩
  · simp [Node.to_string, toStringLayout, openTagString, childListToString,
      String.append_assoc]

theorem c8_amended_pretty_layout_witness :
    Node.to_string (.concrete "P" "p" false [] [Child.pstr "a"]) true 0 = "<P>a</P>"
    ∧ Node.to_string (.concrete "P" "p" false [("id", AttrValue.str "x")] [Child.pstr "a"]) true 0
        = "<P id=\"x\">\n  a\n</P>"
    ∧ Node.to_string twoStrNode true 0
        = openTagString "Person" [] 0 ++ ">" ++ indentOf 0 ++ "  "
            ++ childListToString [Child.pstr "a", Child.pstr "b"] true 1
            ++ "\n" ++ indentOf 0 ++ "</" ++ "Person" ++ ">"
    ∧ (∃ rest, childToString (Child.elem (.concrete "B" "b" false [] [])) true 1 =
        "\n" ++ (indentOf 1 ++ rest))
    ∧ Node.to_string (.concrete "P" "p" true [] []) true 0 = "<P />" := by
  refine ⟨?_, ?_, ?_, ?_, ?_⟩
  · rw [(c8_amended_pretty_layout "P" "p" false [] (Child.pstr "a") [] 0).1 rfl]
    rfl
  · rw [(c8_amended_pretty_layout "P" "p" false [("id", AttrValue.str "x")]
      (Child.pstr "a") [] 0).2.1 rfl (by simp)]
    rfl
  · exact (c8_amended_pretty_layout "Person" "div" false [] (Child.pstr "a")
      [Child.pstr "a", Child.pstr "b"] 0).2.2.1 rfl (by simp)
  · exact (c8_amended_pretty_layout "X" "x" false [] (Child.pstr "a") [] 0).2.2.2.1
      (.concrete "B" "b" false [] [])
  · exact (c8_amended_pretty_layout "P" "p" true [] (Child.pstr "a") [] 0).2.2.2.2

/-- `DarkTheme()` with `colors` overridden (same `"dark"` name, different
primary color). -/
def darkVariant : ThemeData :=
  ⟨defaultFonts,
   ⟨"#000", "#6c757d", "#198754", "#0dcaf0", "#ffc107", "#dc3545",
    "#313539", "#f8f9fa", "#fff", "#222"⟩,
   "dark"⟩

/-- Claim C9: the behaviour the code actually exhibits contradicts the
name-only equality that `Theme.__eq__` declares.  `@dataclass` regenerates
`__eq__` on `DarkTheme` and `LightTheme` (their class bodies define none),
so two dark themes with the same name `"dark"` but different colors compare
unequal under the generated field comparison, while `Theme.__eq__` as
written — and the claim — say they are equal. -/
theorem c9_theme_equality_bug :
    dataclassThemeEq darkThemeDefault darkVariant = false
    ∧ themeEqMethod darkThemeDefault (.theme darkVariant) = true
    ∧ darkThemeDefault.name = darkVariant.name :=
  ⟨rfl, rfl, rfl⟩

/-- Claim C10: `__format__` raises `TypeError` whenever some child is not a
primitive; when all children are primitive it returns the non-pretty string
form `to_string(pretty=False)`. -/
theorem c10_format_method (n : Node) :
    ((∃ c ∈ n.children, c.isPrimitive = false) →
        n.formatMethod = .error .typeError)
    ∧ ((∀ c ∈ n.children, c.isPrimitive = true) →
        n.formatMethod = .ok (n.to_string false 0)) := by
  constructor
  · rintro ⟨c, hc, hprim⟩
    have hall : n.children.all Child.isPrimitive = false := by
      cases hx : n.children.all Child.isPrimitive with
      | false => rfl
      | true =>
        rw [List.all_eq_true] at hx
        rw [hx c hc] at hprim
        exact Bool.noConfusion hprim
    simp [Node.formatMethod, hall]
  · intro hall
    have hx : n.children.all Child.isPrimitive = true := List.all_eq_true.mpr hall
    simp [Node.formatMethod, hx]

theorem c10_format_method_witness :
    Node.formatMethod (.concrete "P" "p" false []
        [Child.elem (.concrete "B" "b" false [] [])]) = .error .typeError
    ∧ Node.formatMethod (.concrete "P" "p" false [] [Child.pstr "hi", Child.pint 3]) =
        .ok (Node.to_string (.concrete "P" "p" false [] [Child.pstr "hi", Child.pint 3]) false 0) := by
  constructor
  · exact (c10_format_method _).1
      ⟨Child.elem (.concrete "B" "b" false [] []), by simp [Node.children], rfl⟩
  · exact (c10_format_method _).2 (by simp [Node.children, Child.isPrimitive])

end Ludic
